import Mathlib

/-!
# Verification of the indicator engine and analysis client of `app.py`

Shallow embedding of the indicator computations (`add_indicator` in
`src/app.py`), the response-validation pipeline of the "Run AI Analysis"
handler, the API-key startup check, and the request-header redaction.
Prices and volumes are modelled as rationals; pandas missing values (NaN)
are modelled as `Option`/an explicit `FloatVal.nan` where the code can
produce them.
-/

/-! ## Pandas series primitives -/

/-- Running cumulative sums with accumulator, modelling `Series.cumsum()`. -/
def cumsumAux (acc : ℚ) : List ℚ → List ℚ
  | [] => []
  | x :: xs => (acc + x) :: cumsumAux (acc + x) xs

/-- `Series.cumsum()`: element `i` is the sum of elements `0..i`. -/
def cumsum (l : List ℚ) : List ℚ := cumsumAux 0 l

/-- The trailing window of length `n` ending at index `i`: the elements of
`c` at indices `i+1-n .. i`. -/
def windowAt (n i : ℕ) (c : List ℚ) : List ℚ := (c.take (i + 1)).drop (i + 1 - n)

/-- `Series.rolling(window=n).mean()`: value at `i` is the mean of the
trailing window when at least `n` observations exist (pandas default
`min_periods = n`), and NaN (`none`) otherwise. -/
def rollingMean (n : ℕ) (c : List ℚ) : List (Option ℚ) :=
  (List.range c.length).map fun i =>
    if n ≤ i + 1 then some ((windowAt n i c).sum / (n : ℚ)) else none

/-- The sample variance (`ddof = 1`, the pandas `.std()` default, squared)
of the trailing window: `Series.rolling(window=n).var()`. -/
def rollingVar (n : ℕ) (c : List ℚ) : List (Option ℚ) :=
  (List.range c.length).map fun i =>
    if n ≤ i + 1 then
      some (let w := windowAt n i c
            let m := w.sum / (n : ℚ)
            (w.map fun x => (x - m) ^ 2).sum / ((n : ℚ) - 1))
    else none

/-- `Series.rolling(window=n).std()`: square root of the sample variance. -/
noncomputable def rollingStd (n : ℕ) (c : List ℚ) : List (Option ℝ) :=
  (rollingVar n c).map (Option.map fun (v : ℚ) => Real.sqrt (v : ℝ))

/-- One step of the pandas exponentially-weighted accumulation with
`adjust=True`: the state is the pair (weighted numerator, weight total),
both decayed by `ω = 1 - α` before the new observation enters. -/
def ewmStep (ω : ℚ) (st : ℚ × ℚ) (x : ℚ) : ℚ × ℚ := (ω * st.1 + x, ω * st.2 + 1)

/-- Worker for `Series.ewm(span=s).mean()` (pandas default `adjust=True`):
emits `numerator / denominator` after each observation. -/
def ewmAux (ω : ℚ) (st : ℚ × ℚ) : List ℚ → List ℚ
  | [] => []
  | x :: xs =>
    let st2 := ewmStep ω st x
    (st2.1 / st2.2) :: ewmAux ω st2 xs

/-- `Series.ewm(span=s).mean()` with the pandas default `adjust=True`:
the decay factor is `ω = 1 - α` with `α = 2/(s+1)`. -/
def ewmMean (s : ℕ) (c : List ℚ) : List ℚ :=
  ewmAux (1 - 2 / ((s : ℚ) + 1)) (0, 0) c

/-- A pandas/NumPy float result: a finite value, a signed infinity, or NaN. -/
inductive FloatVal where
  | val (q : ℚ)
  | posInf
  | negInf
  | nan
deriving DecidableEq, Repr

/-- NumPy float division as performed elementwise by `Series.__truediv__`:
division by zero produces NaN for `0/0` and a signed infinity otherwise;
no exception is raised. -/
def floatDiv (a b : ℚ) : FloatVal :=
  if b = 0 then
    if a = 0 then .nan else if 0 < a then .posInf else .negInf
  else .val (a / b)

/-- The VWAP column computed by the `"VWAP"` branch of `add_indicator`:
`(data['Close'] * data['Volume']).cumsum() / data['Volume'].cumsum()`. -/
def vwapList (close volume : List ℚ) : List FloatVal :=
  List.zipWith floatDiv (cumsum (List.zipWith (· * ·) close volume)) (cumsum volume)

/-! ## Index lemmas for the series primitives -/

theorem cumsumAux_length (a : ℚ) (l : List ℚ) : (cumsumAux a l).length = l.length := by
  induction l generalizing a with
  | nil => rfl
  | cons x xs ih => simp [cumsumAux, ih]

theorem cumsum_length (l : List ℚ) : (cumsum l).length = l.length :=
  cumsumAux_length 0 l

theorem cumsumAux_getElem? (a : ℚ) (l : List ℚ) (i : ℕ) (h : i < l.length) :
    (cumsumAux a l)[i]? = some (a + ∑ j ∈ Finset.range (i + 1), l.getD j 0) := by
  induction l generalizing a i with
  | nil => simp at h
  | cons x xs ih =>
    cases i with
    | zero => simp [cumsumAux]
    | succ i =>
      simp only [List.length_cons, Nat.succ_lt_succ_iff] at h
      simp only [cumsumAux, List.getElem?_cons_succ, ih (a + x) i h]
      congr 1
      have hcons : ∀ j : ℕ, (x :: xs).getD (j + 1) 0 = xs.getD j 0 := fun j => rfl
      rw [Finset.sum_range_succ' (fun j => (x :: xs).getD j 0) (i + 1)]
      simp only [hcons, List.getD_cons_zero]
      ring

theorem cumsum_getD (l : List ℚ) (i : ℕ) (h : i < l.length) :
    (cumsum l).getD i 0 = ∑ j ∈ Finset.range (i + 1), l.getD j 0 := by
  have := cumsumAux_getElem? 0 l i h
  rw [cumsum, List.getD_eq_getElem?_getD, this]
  simp

theorem list_sum_eq_sum_getD (l : List ℚ) :
    l.sum = ∑ j ∈ Finset.range l.length, l.getD j 0 := by
  induction l with
  | nil => simp
  | cons x xs ih =>
    have hcons : ∀ j : ℕ, (x :: xs).getD (j + 1) 0 = xs.getD j 0 := fun j => rfl
    rw [List.sum_cons, ih, List.length_cons,
      Finset.sum_range_succ' (fun j => (x :: xs).getD j 0) xs.length]
    simp only [hcons, List.getD_cons_zero]
    ring

theorem zipWith_getD (f : ℚ → ℚ → ℚ) (a b : List ℚ) (j : ℕ)
    (ha : j < a.length) (hb : j < b.length) :
    (List.zipWith f a b).getD j 0 = f (a.getD j 0) (b.getD j 0) := by
  rw [List.getD_eq_getElem?_getD, List.getD_eq_getElem?_getD, List.getD_eq_getElem?_getD,
    List.getElem?_zipWith]
  rw [List.getElem?_eq_getElem ha, List.getElem?_eq_getElem hb]
  rfl

theorem ewmAux_length (ω : ℚ) (st : ℚ × ℚ) (l : List ℚ) :
    (ewmAux ω st l).length = l.length := by
  induction l generalizing st with
  | nil => rfl
  | cons x xs ih => simp [ewmAux, ih]

theorem ewmMean_length (s : ℕ) (c : List ℚ) : (ewmMean s c).length = c.length :=
  ewmAux_length _ _ c

/-- Closed form of the pandas `adjust=True` exponentially-weighted mean:
starting from accumulated state `(a, b)`, the value emitted at index `i`
is the decayed state plus the `ω`-weighted window, over the decayed weight
total. -/
theorem ewmAux_getElem? (ω a b : ℚ) (l : List ℚ) (i : ℕ) (h : i < l.length) :
    (ewmAux ω (a, b) l)[i]? =
      some ((ω ^ (i + 1) * a + ∑ j ∈ Finset.range (i + 1), ω ^ (i - j) * l.getD j 0) /
            (ω ^ (i + 1) * b + ∑ j ∈ Finset.range (i + 1), ω ^ j)) := by
  induction l generalizing a b i with
  | nil => simp at h
  | cons x xs ih =>
    cases i with
    | zero =>
      simp [ewmAux, ewmStep, pow_one]
    | succ i =>
      simp only [List.length_cons, Nat.succ_lt_succ_iff] at h
      have hx := ih (ω * a + x) (ω * b + 1) i h
      simp only [ewmAux, ewmStep, List.getElem?_cons_succ]
      rw [hx]
      congr 1
      have hcons : ∀ j : ℕ, (x :: xs).getD (j + 1) 0 = xs.getD j 0 := fun j => rfl
      have hnum : ∑ j ∈ Finset.range (i + 1 + 1), ω ^ (i + 1 - j) * (x :: xs).getD j 0
          = (∑ j ∈ Finset.range (i + 1), ω ^ (i - j) * xs.getD j 0) + ω ^ (i + 1) * x := by
        rw [Finset.sum_range_succ' (fun j => ω ^ (i + 1 - j) * (x :: xs).getD j 0) (i + 1)]
        simp only [hcons, List.getD_cons_zero, Nat.succ_sub_succ, Nat.sub_zero]
      have hden : ∑ j ∈ Finset.range (i + 1 + 1), ω ^ j
          = (∑ j ∈ Finset.range (i + 1), ω ^ j) + ω ^ (i + 1) := Finset.sum_range_succ _ _
      rw [hnum, hden]
      ring

/-! ## C1: the 20-day EMA -/

/-- C1 (counterexample): the claim states the unadjusted recursion
`EMA[i] = α·close[i] + (1-α)·EMA[i-1]` with `α = 2/21`.  On the series
`close = [1, 0]` the code (`ewm(span=20).mean()`, pandas default
`adjust=True`) yields `EMA[1] = 19/40`, while the claimed recursion from
`EMA[0] = 1` yields `19/21 ≠ 19/40`. -/
theorem C1_ema_recursion_counterexample :
    (ewmMean 20 [1, 0])[0]? = some 1 ∧
    (ewmMean 20 [1, 0])[1]? = some (19 / 40) ∧
    (2 / 21 : ℚ) * 0 + (1 - 2 / 21) * 1 = 19 / 21 ∧
    (19 / 40 : ℚ) ≠ 19 / 21 := by
  refine ⟨?_, ?_, by norm_num, by norm_num⟩ <;>
    · simp only [ewmMean, ewmAux, ewmStep]
      norm_num

/-- C1 (amended): for every non-empty price series the 20-day EMA is
defined at every index; `EMA[0] = close[0]`; and for every `i`,
`EMA[i]` is the *adjusted* exponentially-weighted mean
`(∑ j ≤ i, ω^(i-j)·close[j]) / (∑ j ≤ i, ω^j)` with `ω = 1 - α = 19/21`,
`α = 2/(20+1)` — not the unadjusted recursion stated in the claim. -/
theorem C1_ema_adjusted_closed_form (c : List ℚ) (i : ℕ) (h : i < c.length) :
    (ewmMean 20 c).length = c.length ∧
    (ewmMean 20 c)[i]? =
      some ((∑ j ∈ Finset.range (i + 1), (19 / 21 : ℚ) ^ (i - j) * c.getD j 0) /
            (∑ j ∈ Finset.range (i + 1), (19 / 21 : ℚ) ^ j)) ∧
    (ewmMean 20 c)[0]? = some (c.getD 0 0) := by
  have hω : (1 - 2 / ((20 : ℕ) + 1) : ℚ) = 19 / 21 := by norm_num
  have key : ∀ k : ℕ, k < c.length → (ewmMean 20 c)[k]? =
      some ((∑ j ∈ Finset.range (k + 1), (19 / 21 : ℚ) ^ (k - j) * c.getD j 0) /
            (∑ j ∈ Finset.range (k + 1), (19 / 21 : ℚ) ^ j)) := by
    intro k hk
    have := ewmAux_getElem? (1 - 2 / ((20 : ℕ) + 1) : ℚ) 0 0 c k hk
    rw [ewmMean, this, hω]
    norm_num
  refine ⟨ewmMean_length 20 c, key i h, ?_⟩
  have h0 : 0 < c.length := lt_of_le_of_lt (Nat.zero_le i) h
  rw [key 0 h0]
  simp [Finset.sum_range_one]

/-- Witness for C1: the amended closed form evaluated on `close = [1, 0]`
at index `1`. -/
theorem C1_ema_adjusted_closed_form_witness :
    1 < ([1, 0] : List ℚ).length ∧
    ((ewmMean 20 [1, 0]).length = ([1, 0] : List ℚ).length ∧
     (ewmMean 20 [1, 0])[1]? =
       some ((∑ j ∈ Finset.range 2, (19 / 21 : ℚ) ^ (1 - j) * ([1, 0] : List ℚ).getD j 0) /
             (∑ j ∈ Finset.range 2, (19 / 21 : ℚ) ^ j)) ∧
     (ewmMean 20 [1, 0])[0]? = some (([1, 0] : List ℚ).getD 0 0)) :=
  ⟨by decide, C1_ema_adjusted_closed_form [1, 0] 1 (by decide)⟩

/-! ## C2: the 20-day SMA -/

theorem rollingMean_length (n : ℕ) (c : List ℚ) :
    (rollingMean n c).length = c.length := by
  simp [rollingMean]

theorem rollingMean_getElem? (n : ℕ) (c : List ℚ) (i : ℕ) (h : i < c.length) :
    (rollingMean n c)[i]? =
      some (if n ≤ i + 1 then some ((windowAt n i c).sum / (n : ℚ)) else none) := by
  rw [rollingMean, List.getElem?_map, List.getElem?_range h]
  rfl

/-- The trailing window sums the close prices over the index interval
`[i+1-n, i]`. -/
theorem windowAt_sum (n i : ℕ) (c : List ℚ) (hn : n ≤ i + 1) (hi : i < c.length) :
    (windowAt n i c).sum = ∑ j ∈ Finset.Icc (i + 1 - n) i, c.getD j 0 := by
  have hlen : (windowAt n i c).length = n := by
    rw [windowAt, List.length_drop, List.length_take]
    omega
  have hget : ∀ j : ℕ, j < n → (windowAt n i c).getD j 0 = c.getD (i + 1 - n + j) 0 := by
    intro j hj
    rw [windowAt, List.getD_eq_getElem?_getD, List.getD_eq_getElem?_getD,
      List.getElem?_drop, List.getElem?_take_of_lt (by omega)]
  rw [list_sum_eq_sum_getD, hlen,
    Finset.sum_congr rfl fun j hj => hget j (Finset.mem_range.mp hj),
    show Finset.Icc (i + 1 - n) i = Finset.Ico (i + 1 - n) (i + 1) by
      rw [Nat.Ico_succ_right],
    Finset.sum_Ico_eq_sum_range,
    show i + 1 - (i + 1 - n) = n from by omega]

/-- Counting the defined entries of an `if n ≤ i+1`-guarded range map. -/
theorem countP_defined_range (n L : ℕ) (f : ℕ → ℚ) :
    (((List.range L).map fun i => if n ≤ i + 1 then some (f i) else none).countP
      fun o => o.isSome) = L - (n - 1) := by
  induction L with
  | zero => simp
  | succ L ih =>
    rw [List.range_succ, List.map_append, List.countP_append, ih]
    by_cases hc : n ≤ L + 1
    · simp only [List.map_cons, List.map_nil, List.countP_cons, List.countP_nil, if_pos hc,
        Option.isSome_some]
      simp
      omega
    · simp only [List.map_cons, List.map_nil, List.countP_cons, List.countP_nil, if_neg hc,
        Option.isSome_none]
      simp
      omega

/-- C2 (confirmed): for a window `n ≥ 1`, the SMA produced by
`data['Close'].rolling(window=n).mean()` has one entry per price; index
`i` is defined iff `i ≥ n-1`; each defined entry is the arithmetic mean of
the closes over `[i+1-n, i]`; when `n ≤ L` exactly `L-n+1` entries are
defined; an empty series yields an empty output; and when `n > L` every
entry is undefined. -/
theorem C2_sma_rolling_mean (n : ℕ) (hn : 1 ≤ n) (c : List ℚ) :
    (rollingMean n c).length = c.length ∧
    (∀ i, i < c.length →
      (((rollingMean n c).getD i none).isSome = true ↔ n - 1 ≤ i)) ∧
    (∀ i, i < c.length → n - 1 ≤ i →
      (rollingMean n c)[i]? =
        some (some ((∑ j ∈ Finset.Icc (i + 1 - n) i, c.getD j 0) / (n : ℚ)))) ∧
    (n ≤ c.length → ((rollingMean n c).countP fun o => o.isSome) = c.length - n + 1) ∧
    rollingMean n [] = [] ∧
    (c.length < n → ∀ o ∈ rollingMean n c, o = none) := by
  refine ⟨rollingMean_length n c, ?_, ?_, ?_, rfl, ?_⟩
  · intro i hi
    rw [List.getD_eq_getElem?_getD, rollingMean_getElem? n c i hi]
    by_cases hc : n ≤ i + 1
    · simp [if_pos hc]; omega
    · simp [if_neg hc]; omega
  · intro i hi hd
    rw [rollingMean_getElem? n c i hi, if_pos (by omega), windowAt_sum n i c (by omega) hi]
  · intro hL
    rw [rollingMean, countP_defined_range]
    omega
  · intro hL o ho
    rw [rollingMean] at ho
    obtain ⟨i, hi, rfl⟩ := List.mem_map.mp ho
    rw [List.mem_range] at hi
    rw [if_neg (by omega)]

/-- Witness for C2: window `3` over the five closes `[1, 2, 3, 4, 5]`. -/
theorem C2_sma_rolling_mean_witness :
    (1 ≤ 3) ∧
    ((rollingMean 3 [1, 2, 3, 4, 5]).length = ([1, 2, 3, 4, 5] : List ℚ).length ∧
     (∀ i, i < ([1, 2, 3, 4, 5] : List ℚ).length →
       (((rollingMean 3 [1, 2, 3, 4, 5]).getD i none).isSome = true ↔ 3 - 1 ≤ i)) ∧
     (∀ i, i < ([1, 2, 3, 4, 5] : List ℚ).length → 3 - 1 ≤ i →
       (rollingMean 3 [1, 2, 3, 4, 5])[i]? =
         some (some ((∑ j ∈ Finset.Icc (i + 1 - 3) i,
           ([1, 2, 3, 4, 5] : List ℚ).getD j 0) / (3 : ℚ)))) ∧
     (3 ≤ ([1, 2, 3, 4, 5] : List ℚ).length →
       ((rollingMean 3 [1, 2, 3, 4, 5]).countP fun o => o.isSome) =
         ([1, 2, 3, 4, 5] : List ℚ).length - 3 + 1) ∧
     rollingMean 3 [] = [] ∧
     (([1, 2, 3, 4, 5] : List ℚ).length < 3 →
       ∀ o ∈ rollingMean 3 [1, 2, 3, 4, 5], o = none)) :=
  ⟨by decide, C2_sma_rolling_mean 3 (by decide) [1, 2, 3, 4, 5]⟩

/-! ## C3: the 20-day Bollinger Bands -/

/-- The sample variance (`ddof = 1`) of the trailing `n`-window at `i`,
the quantity whose square root `Series.rolling(window=n).std()` takes. -/
def sampleVar (n i : ℕ) (c : List ℚ) : ℚ :=
  ((windowAt n i c).map fun x => (x - (windowAt n i c).sum / (n : ℚ)) ^ 2).sum / ((n : ℚ) - 1)

theorem rollingVar_length (n : ℕ) (c : List ℚ) : (rollingVar n c).length = c.length := by
  simp [rollingVar]

theorem rollingVar_getElem? (n : ℕ) (c : List ℚ) (i : ℕ) (h : i < c.length) :
    (rollingVar n c)[i]? =
      some (if n ≤ i + 1 then some (sampleVar n i c) else none) := by
  rw [rollingVar, List.getElem?_map, List.getElem?_range h]
  rfl

theorem rollingStd_length (n : ℕ) (c : List ℚ) : (rollingStd n c).length = c.length := by
  rw [rollingStd, List.length_map, rollingVar_length]

theorem rollingStd_getElem?_def (n : ℕ) (c : List ℚ) (i : ℕ) (h : i < c.length)
    (hw : n ≤ i + 1) :
    (rollingStd n c)[i]? = some (some (Real.sqrt ((sampleVar n i c : ℚ) : ℝ))) := by
  rw [rollingStd, List.getElem?_map, rollingVar_getElem? n c i h, if_pos hw]
  rfl

theorem rollingStd_getElem?_none (n : ℕ) (c : List ℚ) (i : ℕ) (h : i < c.length)
    (hw : ¬ n ≤ i + 1) :
    (rollingStd n c)[i]? = some none := by
  rw [rollingStd, List.getElem?_map, rollingVar_getElem? n c i h, if_neg hw]
  rfl

/-- `bb_upper = sma + 2 * std` in the `"20-Day Bollinger Bands"` branch of
`add_indicator`: elementwise addition, propagating NaN. -/
noncomputable def bbUpper (c : List ℚ) : List (Option ℝ) :=
  List.zipWith
    (fun mo so => match mo, so with
      | some m, some s => some (((m : ℚ) : ℝ) + 2 * s)
      | _, _ => none)
    (rollingMean 20 c) (rollingStd 20 c)

/-- `bb_lower = sma - 2 * std` in the `"20-Day Bollinger Bands"` branch of
`add_indicator`: elementwise subtraction, propagating NaN. -/
noncomputable def bbLower (c : List ℚ) : List (Option ℝ) :=
  List.zipWith
    (fun mo so => match mo, so with
      | some m, some s => some (((m : ℚ) : ℝ) - 2 * s)
      | _, _ => none)
    (rollingMean 20 c) (rollingStd 20 c)

theorem bbUpper_getElem?_def (c : List ℚ) (j : ℕ) (hj : j < c.length) (h20 : 20 ≤ j + 1) :
    (bbUpper c)[j]? =
      some (some ((((windowAt 20 j c).sum / ((20 : ℕ) : ℚ) : ℚ) : ℝ) +
        2 * Real.sqrt ((sampleVar 20 j c : ℚ) : ℝ))) := by
  rw [bbUpper, List.getElem?_zipWith, rollingMean_getElem? 20 c j hj,
    rollingStd_getElem?_def 20 c j hj h20, if_pos h20]

theorem bbUpper_getElem?_none (c : List ℚ) (j : ℕ) (hj : j < c.length)
    (h20 : ¬ 20 ≤ j + 1) :
    (bbUpper c)[j]? = some none := by
  rw [bbUpper, List.getElem?_zipWith, rollingMean_getElem? 20 c j hj,
    rollingStd_getElem?_none 20 c j hj h20, if_neg h20]

theorem bbLower_getElem?_def (c : List ℚ) (j : ℕ) (hj : j < c.length) (h20 : 20 ≤ j + 1) :
    (bbLower c)[j]? =
      some (some ((((windowAt 20 j c).sum / ((20 : ℕ) : ℚ) : ℚ) : ℝ) -
        2 * Real.sqrt ((sampleVar 20 j c : ℚ) : ℝ))) := by
  rw [bbLower, List.getElem?_zipWith, rollingMean_getElem? 20 c j hj,
    rollingStd_getElem?_def 20 c j hj h20, if_pos h20]

theorem bbLower_getElem?_none (c : List ℚ) (j : ℕ) (hj : j < c.length)
    (h20 : ¬ 20 ≤ j + 1) :
    (bbLower c)[j]? = some none := by
  rw [bbLower, List.getElem?_zipWith, rollingMean_getElem? 20 c j hj,
    rollingStd_getElem?_none 20 c j hj h20, if_neg h20]

/-- C3 (confirmed): the Bollinger Bands (`n = 20`, `k = 2`) are defined at
exactly the indices `j ≥ 19` at which the SMA and rolling std are, and at
every defined index `upper = SMA + 2·std`, `lower = SMA - 2·std`, with
`lower ≤ SMA ≤ upper` and `upper - SMA = SMA - lower = 2·std`. -/
theorem C3_bollinger_bands (c : List ℚ) (i : ℕ) (hi : i < c.length) (hd : 19 ≤ i) :
    (bbUpper c).length = c.length ∧ (bbLower c).length = c.length ∧
    (∀ j, j < c.length → ((((bbUpper c).getD j none).isSome = true) ↔ 19 ≤ j)) ∧
    (∀ j, j < c.length → ((((bbLower c).getD j none).isSome = true) ↔ 19 ≤ j)) ∧
    ∃ (m : ℚ) (s : ℝ), (rollingMean 20 c)[i]? = some (some m) ∧
      (rollingStd 20 c)[i]? = some (some s) ∧
      (bbUpper c)[i]? = some (some ((m : ℝ) + 2 * s)) ∧
      (bbLower c)[i]? = some (some ((m : ℝ) - 2 * s)) ∧
      0 ≤ s ∧
      (m : ℝ) - 2 * s ≤ (m : ℝ) ∧ (m : ℝ) ≤ (m : ℝ) + 2 * s ∧
      ((m : ℝ) + 2 * s) - (m : ℝ) = 2 * s ∧ (m : ℝ) - ((m : ℝ) - 2 * s) = 2 * s := by
  have hlenu : (bbUpper c).length = c.length := by
    rw [bbUpper, List.length_zipWith, rollingMean_length, rollingStd_length, min_self]
  have hlenl : (bbLower c).length = c.length := by
    rw [bbLower, List.length_zipWith, rollingMean_length, rollingStd_length, min_self]
  refine ⟨hlenu, hlenl, ?_, ?_, ?_⟩
  · intro j hj
    by_cases h20 : 20 ≤ j + 1
    · rw [List.getD_eq_getElem?_getD, bbUpper_getElem?_def c j hj h20]
      simp
      omega
    · rw [List.getD_eq_getElem?_getD, bbUpper_getElem?_none c j hj h20]
      simp
      omega
  · intro j hj
    by_cases h20 : 20 ≤ j + 1
    · rw [List.getD_eq_getElem?_getD, bbLower_getElem?_def c j hj h20]
      simp
      omega
    · rw [List.getD_eq_getElem?_getD, bbLower_getElem?_none c j hj h20]
      simp
      omega
  · have h20 : 20 ≤ i + 1 := by omega
    have hs : (0 : ℝ) ≤ Real.sqrt ((sampleVar 20 i c : ℚ) : ℝ) := Real.sqrt_nonneg _
    refine ⟨(windowAt 20 i c).sum / ((20 : ℕ) : ℚ), Real.sqrt ((sampleVar 20 i c : ℚ) : ℝ),
      ?_, rollingStd_getElem?_def 20 c i hi h20,
      bbUpper_getElem?_def c i hi h20, bbLower_getElem?_def c i hi h20,
      hs, by linarith, by linarith, by ring, by ring⟩
    rw [rollingMean_getElem? 20 c i hi, if_pos h20]

/-- Witness for C3: the constant series of twenty zero closes at index 19
(variance 0, so both bands coincide with the SMA). -/
theorem C3_bollinger_bands_witness :
    19 < (List.replicate 20 (0 : ℚ)).length ∧ 19 ≤ 19 ∧
    ((bbUpper (List.replicate 20 (0 : ℚ))).length = (List.replicate 20 (0 : ℚ)).length ∧
     (bbLower (List.replicate 20 (0 : ℚ))).length = (List.replicate 20 (0 : ℚ)).length ∧
     (∀ j, j < (List.replicate 20 (0 : ℚ)).length →
       ((((bbUpper (List.replicate 20 (0 : ℚ))).getD j none).isSome = true) ↔ 19 ≤ j)) ∧
     (∀ j, j < (List.replicate 20 (0 : ℚ)).length →
       ((((bbLower (List.replicate 20 (0 : ℚ))).getD j none).isSome = true) ↔ 19 ≤ j)) ∧
     ∃ (m : ℚ) (s : ℝ), (rollingMean 20 (List.replicate 20 (0 : ℚ)))[19]? = some (some m) ∧
       (rollingStd 20 (List.replicate 20 (0 : ℚ)))[19]? = some (some s) ∧
       (bbUpper (List.replicate 20 (0 : ℚ)))[19]? = some (some ((m : ℝ) + 2 * s)) ∧
       (bbLower (List.replicate 20 (0 : ℚ)))[19]? = some (some ((m : ℝ) - 2 * s)) ∧
       0 ≤ s ∧
       (m : ℝ) - 2 * s ≤ (m : ℝ) ∧ (m : ℝ) ≤ (m : ℝ) + 2 * s ∧
       ((m : ℝ) + 2 * s) - (m : ℝ) = 2 * s ∧ (m : ℝ) - ((m : ℝ) - 2 * s) = 2 * s) :=
  ⟨by decide, by decide, C3_bollinger_bands (List.replicate 20 (0 : ℚ)) 19 (by decide) (by decide)⟩

/-! ## C4: the "Run AI Analysis" response handling -/

/-- A JSON document, as produced by `response.json()`. -/
inductive Json where
  | null
  | bool (b : Bool)
  | num (q : ℚ)
  | str (s : String)
  | arr (items : List Json)
  | obj (fields : List (String × Json))

/-- Python truthiness of a JSON value (`if not json_response`). -/
def Json.isFalsy : Json → Bool
  | .null => true
  | .bool b => !b
  | .num q => q = 0
  | .str s => s = ""
  | .arr l => l.isEmpty
  | .obj l => l.isEmpty

/-- Whether a JSON value equals the Python string `s` (element comparison
performed by `in` on a list). -/
def Json.isStrEq (s : String) : Json → Bool
  | .str t => t = s
  | _ => false

/-- Dictionary lookup: `d[key]` / `key in d` on a JSON object. -/
def lookupField : List (String × Json) → String → Option Json
  | [], _ => none
  | (k, v) :: rest, key => if k = key then some v else lookupField rest key

/-- Python substring test `needle in s` on character lists. -/
def hasSubstrAux (nd : List Char) : List Char → Bool
  | [] => nd.isEmpty
  | c :: cs => nd.isPrefixOf (c :: cs) || hasSubstrAux nd cs

/-- Python substring test `needle in s` on strings. -/
def hasSubstr (needle s : String) : Bool := hasSubstrAux needle.data s.data

/-- The distinct failure modes reported by the analysis handler. -/
inductive ErrorKind where
  | emptyResponse
  | parseError
  | emptyJson
  | missingField
  | emptyResults
  | httpError (status : ℕ)
  | networkError (msg : String)
  | pythonError
deriving DecidableEq, Repr

/-- The outcome of one analysis attempt: the displayed text on success, or
the first failure reported. -/
inductive AnalysisResult where
  | success (content : Json)
  | failure (kind : ErrorKind)

/-- What `requests.post` produced: a raised timeout, another raised request
exception, or an HTTP response with status code, raw text, and the result
of attempting `response.json()` on that text (`none` = parse error). -/
inductive NetOutcome where
  | timeout (msg : String)
  | reqError (msg : String)
  | response (status : ℕ) (text : String) (parsed : Option Json)

/-- `'content' not in choice['message']` and the final
`st.markdown(choice['message']['content'])`.  A non-dict message mirrors
Python: membership on a list compares elements, on a string it is a
substring test (and subsequent string indexing raises), anything else
raises `TypeError` (caught by the generic handler). -/
def handleMessage (msg : Json) : AnalysisResult :=
  match msg with
  | .obj fs =>
    match lookupField fs "content" with
    | some v => .success v
    | none => .failure .missingField
  | .arr l => if l.any (Json.isStrEq "content") then .failure .pythonError
              else .failure .missingField
  | .str s => if hasSubstr "content" s then .failure .pythonError
              else .failure .missingField
  | _ => .failure .pythonError

/-- `'message' not in choice` followed by the content check. -/
def handleChoice (choice : Json) : AnalysisResult :=
  match choice with
  | .obj fs =>
    match lookupField fs "message" with
    | some m => handleMessage m
    | none => .failure .missingField
  | .arr l => if l.any (Json.isStrEq "message") then .failure .pythonError
              else .failure .missingField
  | .str s => if hasSubstr "message" s then .failure .pythonError
              else .failure .missingField
  | _ => .failure .pythonError

/-- The body checks applied to a parsed 200-status JSON document, in code
order: `if not json_response` ("Empty JSON response"), `'choices' not in
json_response` ("No 'choices' in response"), `if not
json_response['choices']` ("Empty choices array"), then the nested
message/content checks on `json_response['choices'][0]`.  A non-falsy
string value of `choices` is indexed to its one-character first element,
which cannot contain the seven-character key `'message'`, hence
`missingField`. -/
def handleJson (j : Json) : AnalysisResult :=
  if j.isFalsy then .failure .emptyJson
  else
    match j with
    | .obj fs =>
      match lookupField fs "choices" with
      | none => .failure .missingField
      | some cs =>
        if cs.isFalsy then .failure .emptyResults
        else
          match cs with
          | .arr (c :: _) => handleChoice c
          | .str _ => .failure .missingField
          | _ => .failure .pythonError
    | .arr l => if l.any (Json.isStrEq "choices") then .failure .pythonError
                else .failure .missingField
    | .str s => if hasSubstr "choices" s then .failure .pythonError
                else .failure .missingField
    | _ => .failure .pythonError

/-- The full response handling of the "Run AI Analysis" block
(`src/app.py` lines 172-237): timeouts and request exceptions are caught
and reported; a non-200 status is reported as an API failure with the
status code; for status 200 the body is checked for emptiness
(`not response.text.strip()`, modelled as all-whitespace), then parsed,
then validated. -/
def handleResponse : NetOutcome → AnalysisResult
  | .timeout m => .failure (.networkError m)
  | .reqError m => .failure (.networkError m)
  | .response status text parsed =>
    if status = 200 then
      if text.data.all Char.isWhitespace then .failure .emptyResponse
      else
        match parsed with
        | none => .failure .parseError
        | some j => handleJson j
    else .failure (.httpError status)

/-- The well-formed body of the claim's success scenario. -/
def wfBody : Json :=
  .obj [("choices", .arr [.obj [("message",
    .obj [("content", .str "BUY, High confidence...")])]])]

theorem lookupField_isEmpty_false {fs : List (String × Json)} {k : String} {v : Json}
    (h : lookupField fs k = some v) : fs.isEmpty = false := by
  cases fs with
  | nil => simp [lookupField] at h
  | cons a rest => rfl

/-- C4 (counterexample): the code branches on `status_code == 200`, not on
"2xx", so a well-formed 201 response fails with `HttpError 201` instead of
succeeding; a 500 response with an empty body reports the status, not
`EmptyResponse`; and the empty JSON document `{}` (a missing top-level
`'choices'` field) is reported by the dedicated "Empty JSON response"
check, not as `MissingField`. -/
theorem C4_response_pipeline_counterexample :
    handleResponse (.response 201 "json" (some wfBody)) = .failure (.httpError 201) ∧
    handleResponse (.response 201 "json" (some wfBody)) ≠
      .success (.str "BUY, High confidence...") ∧
    handleResponse (.response 500 "" none) = .failure (.httpError 500) ∧
    (.failure (.httpError 500) : AnalysisResult) ≠ .failure .emptyResponse ∧
    handleResponse (.response 200 "\x7b\x7d" (some (.obj []))) = .failure .emptyJson ∧
    (.failure .emptyJson : AnalysisResult) ≠ .failure .missingField := by
  refine ⟨rfl, ?_, rfl, by simp, rfl, by simp⟩
  have : AnalysisResult.failure (.httpError 201) ≠
      .success (.str "BUY, High confidence...") := by simp
  exact this

/-- C4 (amended): the handler first branches on the HTTP status: any
status other than exactly 200 (other 2xx codes included) yields
`HttpError status`.  For status 200, the ordered body checks are: blank
body → `EmptyResponse`; unparseable body → `ParseError`; falsy JSON
document (e.g. `\x7b\x7d`) → the dedicated `EmptyJson` failure; missing
top-level `'choices'` in a non-empty object → `MissingField`; empty
`'choices'` list → `EmptyResults`; missing nested `'message'` or
`'content'` → `MissingField`; a well-formed document → `Success(content)`.
Raised timeouts and connection failures yield `NetworkError` with the
underlying message. -/
theorem C4_response_pipeline :
    (∀ m, handleResponse (.timeout m) = .failure (.networkError m)) ∧
    (∀ m, handleResponse (.reqError m) = .failure (.networkError m)) ∧
    (∀ s t p, s ≠ 200 → handleResponse (.response s t p) = .failure (.httpError s)) ∧
    (∀ t p, t.data.all Char.isWhitespace = true →
      handleResponse (.response 200 t p) = .failure .emptyResponse) ∧
    (∀ t, t.data.all Char.isWhitespace = false →
      handleResponse (.response 200 t none) = .failure .parseError) ∧
    (∀ t j, t.data.all Char.isWhitespace = false → j.isFalsy = true →
      handleResponse (.response 200 t (some j)) = .failure .emptyJson) ∧
    (∀ t fs, t.data.all Char.isWhitespace = false → fs.isEmpty = false →
      lookupField fs "choices" = none →
      handleResponse (.response 200 t (some (.obj fs))) = .failure .missingField) ∧
    (∀ t fs, t.data.all Char.isWhitespace = false →
      lookupField fs "choices" = some (.arr []) →
      handleResponse (.response 200 t (some (.obj fs))) = .failure .emptyResults) ∧
    (∀ t fs cfs rest, t.data.all Char.isWhitespace = false →
      lookupField fs "choices" = some (.arr (.obj cfs :: rest)) →
      lookupField cfs "message" = none →
      handleResponse (.response 200 t (some (.obj fs))) = .failure .missingField) ∧
    (∀ t fs cfs rest mfs, t.data.all Char.isWhitespace = false →
      lookupField fs "choices" = some (.arr (.obj cfs :: rest)) →
      lookupField cfs "message" = some (.obj mfs) →
      lookupField mfs "content" = none →
      handleResponse (.response 200 t (some (.obj fs))) = .failure .missingField) ∧
    (∀ t fs cfs rest mfs v, t.data.all Char.isWhitespace = false →
      lookupField fs "choices" = some (.arr (.obj cfs :: rest)) →
      lookupField cfs "message" = some (.obj mfs) →
      lookupField mfs "content" = some v →
      handleResponse (.response 200 t (some (.obj fs))) = .success v) := by
  refine ⟨fun m => rfl, fun m => rfl, ?_, ?_, ?_, ?_, ?_, ?_, ?_, ?_, ?_⟩
  · intro s t p hs
    simp only [handleResponse]
    rw [if_neg hs]
  · intro t p ht
    simp [handleResponse, ht]
  · intro t ht
    simp [handleResponse, ht]
  · intro t j ht hj
    simp [handleResponse, handleJson, ht, hj]
  · intro t fs ht hfs hl
    simp [handleResponse, handleJson, Json.isFalsy, ht, hfs, hl]
  · intro t fs ht hl
    have hfs := lookupField_isEmpty_false hl
    simp [handleResponse, handleJson, Json.isFalsy, ht, hfs, hl, List.isEmpty_nil]
  · intro t fs cfs rest ht hl hm
    have hfs := lookupField_isEmpty_false hl
    simp [handleResponse, handleJson, handleChoice, Json.isFalsy, ht, hfs, hl, hm]
  · intro t fs cfs rest mfs ht hl hm hc
    have hfs := lookupField_isEmpty_false hl
    simp [handleResponse, handleJson, handleChoice, handleMessage, Json.isFalsy,
      ht, hfs, hl, hm, hc]
  · intro t fs cfs rest mfs v ht hl hm hc
    have hfs := lookupField_isEmpty_false hl
    simp [handleResponse, handleJson, handleChoice, handleMessage, Json.isFalsy,
      ht, hfs, hl, hm, hc]

/-- Witness for C4: each branch of the amended pipeline characterization
evaluated on a concrete response. -/
theorem C4_response_pipeline_witness :
    handleResponse (.timeout "t") = .failure (.networkError "t") ∧
    handleResponse (.reqError "conn") = .failure (.networkError "conn") ∧
    handleResponse (.response 500 "x" none) = .failure (.httpError 500) ∧
    handleResponse (.response 200 " " none) = .failure .emptyResponse ∧
    handleResponse (.response 200 "x" none) = .failure .parseError ∧
    handleResponse (.response 200 "null" (some .null)) = .failure .emptyJson ∧
    handleResponse (.response 200 "x" (some (.obj [("a", .null)]))) =
      .failure .missingField ∧
    handleResponse (.response 200 "x" (some (.obj [("choices", .arr [])]))) =
      .failure .emptyResults ∧
    handleResponse (.response 200 "x" (some (.obj [("choices", .arr [.obj []])]))) =
      .failure .missingField ∧
    handleResponse (.response 200 "x"
        (some (.obj [("choices", .arr [.obj [("message", .obj [])]])]))) =
      .failure .missingField ∧
    handleResponse (.response 200 "x"
        (some (.obj [("choices",
          .arr [.obj [("message", .obj [("content", .str "BUY")])]])]))) =
      .success (.str "BUY") :=
  ⟨C4_response_pipeline.1 "t",
   C4_response_pipeline.2.1 "conn",
   C4_response_pipeline.2.2.1 500 "x" none (by decide),
   C4_response_pipeline.2.2.2.1 " " none (by decide),
   C4_response_pipeline.2.2.2.2.1 "x" (by decide),
   C4_response_pipeline.2.2.2.2.2.1 "null" .null (by decide) rfl,
   C4_response_pipeline.2.2.2.2.2.2.1 "x" [("a", .null)] (by decide) rfl rfl,
   C4_response_pipeline.2.2.2.2.2.2.2.1 "x" [("choices", .arr [])] (by decide) rfl,
   C4_response_pipeline.2.2.2.2.2.2.2.2.1 "x" [("choices", .arr [.obj []])] [] []
     (by decide) rfl rfl,
   C4_response_pipeline.2.2.2.2.2.2.2.2.2.1 "x"
     [("choices", .arr [.obj [("message", .obj [])]])] [("message", .obj [])] [] []
     (by decide) rfl rfl rfl,
   C4_response_pipeline.2.2.2.2.2.2.2.2.2.2 "x"
     [("choices", .arr [.obj [("message", .obj [("content", .str "BUY")])]])]
     [("message", .obj [("content", .str "BUY")])] []
     [("content", .str "BUY")] (.str "BUY")
     (by decide) rfl rfl rfl⟩

/-! ## C5 and C7: VWAP -/

theorem vwapList_length (close volume : List ℚ) (h : volume.length = close.length) :
    (vwapList close volume).length = close.length := by
  rw [vwapList, List.length_zipWith, cumsum_length, cumsum_length, List.length_zipWith,
    h, min_self, min_self]

theorem vwapList_getElem? (close volume : List ℚ) (h : volume.length = close.length)
    (i : ℕ) (hi : i < close.length) :
    (vwapList close volume)[i]? =
      some (floatDiv (∑ j ∈ Finset.range (i + 1), close.getD j 0 * volume.getD j 0)
                     (∑ j ∈ Finset.range (i + 1), volume.getD j 0)) := by
  have hpv_len : (List.zipWith (· * ·) close volume).length = close.length := by
    rw [List.length_zipWith, h, min_self]
  have h1 := cumsumAux_getElem? 0 (List.zipWith (· * ·) close volume) i
    (by rw [hpv_len]; exact hi)
  have h2 := cumsumAux_getElem? 0 volume i (by rw [h]; exact hi)
  have hz : ∑ j ∈ Finset.range (i + 1), (List.zipWith (· * ·) close volume).getD j 0
      = ∑ j ∈ Finset.range (i + 1), close.getD j 0 * volume.getD j 0 :=
    Finset.sum_congr rfl fun j hj =>
      zipWith_getD (· * ·) close volume j
        (by have := Finset.mem_range.mp hj; omega)
        (by have := Finset.mem_range.mp hj; omega)
  rw [vwapList, List.getElem?_zipWith, cumsum, cumsum, h1, h2]
  simp only [zero_add]
  rw [hz]

theorem volume_getD_nonneg (volume : List ℚ) (hnn : ∀ v ∈ volume, 0 ≤ v) (j : ℕ) :
    0 ≤ volume.getD j 0 := by
  by_cases hj : j < volume.length
  · rw [List.getD_eq_getElem _ _ hj]
    exact hnn _ (List.getElem_mem hj)
  · rw [List.getD_eq_default _ _ (by omega)]

/-- C5 (confirmed): with nonnegative volumes (the data-model invariant),
the VWAP entry is the finite value `cum(close·volume)/cum(volume)`
whenever the cumulative volume up to `i` is positive, and when the
cumulative volume is zero the entry is NaN (undefined) — the cumulative
`close·volume` numerator is then also zero, so no infinity and no raised
division error occurs. -/
theorem C5_vwap_zero_volume_guard (close volume : List ℚ)
    (hlen : volume.length = close.length)
    (hnn : ∀ v ∈ volume, 0 ≤ v) (i : ℕ) (hi : i < close.length) :
    (0 < (cumsum volume).getD i 0 →
      (vwapList close volume)[i]? =
        some (.val ((∑ j ∈ Finset.range (i + 1), close.getD j 0 * volume.getD j 0) /
                    (∑ j ∈ Finset.range (i + 1), volume.getD j 0)))) ∧
    ((cumsum volume).getD i 0 = 0 →
      (vwapList close volume)[i]? = some .nan) := by
  have hiv : i < volume.length := by omega
  have hD : (cumsum volume).getD i 0 = ∑ j ∈ Finset.range (i + 1), volume.getD j 0 :=
    cumsum_getD volume i hiv
  constructor
  · intro hpos
    rw [hD] at hpos
    rw [vwapList_getElem? close volume hlen i hi, floatDiv, if_neg (by exact ne_of_gt hpos)]
  · intro hzero
    rw [hD] at hzero
    have hvz : ∀ j ∈ Finset.range (i + 1), volume.getD j 0 = 0 :=
      (Finset.sum_eq_zero_iff_of_nonneg
        fun j _ => volume_getD_nonneg volume hnn j).mp hzero
    have hnum : ∑ j ∈ Finset.range (i + 1), close.getD j 0 * volume.getD j 0 = 0 :=
      Finset.sum_eq_zero fun j hj => by rw [hvz j hj, mul_zero]
    rw [vwapList_getElem? close volume hlen i hi, hnum, hzero, floatDiv,
      if_pos rfl, if_pos rfl]

/-- Witness for C5: volumes `[1, 0]` against closes `[3, 5]` at index 1
(positive cumulative volume), exercising both implications (the second
vacuously). -/
theorem C5_vwap_zero_volume_guard_witness :
    ([1, 0] : List ℚ).length = ([3, 5] : List ℚ).length ∧
    (∀ v ∈ ([1, 0] : List ℚ), 0 ≤ v) ∧ 1 < ([3, 5] : List ℚ).length ∧
    ((0 < (cumsum [1, 0]).getD 1 0 →
      (vwapList [3, 5] [1, 0])[1]? =
        some (.val ((∑ j ∈ Finset.range 2,
            ([3, 5] : List ℚ).getD j 0 * ([1, 0] : List ℚ).getD j 0) /
          (∑ j ∈ Finset.range 2, ([1, 0] : List ℚ).getD j 0)))) ∧
     ((cumsum [1, 0]).getD 1 0 = 0 →
      (vwapList [3, 5] [1, 0])[1]? = some .nan)) := by
  refine ⟨rfl, ?_, by decide, C5_vwap_zero_volume_guard [3, 5] [1, 0] rfl ?_ 1 (by decide)⟩ <;>
    · intro v hv
      simp only [List.mem_cons, List.not_mem_nil, or_false] at hv
      rcases hv with rfl | rfl <;> norm_num

/-- The running maximum of the close prices over indices `0..i` (the
claim's sanity bound; not computed by the code itself). -/
def runningMax (c : List ℚ) (i : ℕ) : ℚ :=
  (Finset.range (i + 1)).sup' Finset.nonempty_range_succ fun j => c.getD j 0

/-- The running minimum of the close prices over indices `0..i`. -/
def runningMin (c : List ℚ) (i : ℕ) : ℚ :=
  (Finset.range (i + 1)).inf' Finset.nonempty_range_succ fun j => c.getD j 0

theorem runningMin_le (c : List ℚ) (i j : ℕ) (hj : j ∈ Finset.range (i + 1)) :
    runningMin c i ≤ c.getD j 0 := by
  unfold runningMin
  exact Finset.inf'_le _ hj

theorem le_runningMax (c : List ℚ) (i j : ℕ) (hj : j ∈ Finset.range (i + 1)) :
    c.getD j 0 ≤ runningMax c i := by
  unfold runningMax
  exact Finset.le_sup' (fun j => c.getD j 0) hj

/-- C7 (counterexample): the claim quantifies over *every* non-empty price
series and *every* index.  For the one-bar series with close `1` and
volume `0` the cumulative volume at index 0 is zero, so the code computes
`0/0 = NaN`: the VWAP entry is NaN, not a number lying between the running
minimum and maximum (both `1`). -/
theorem C7_vwap_bounds_counterexample :
    vwapList [1] [0] = [.nan] ∧
    runningMin [1] 0 = 1 ∧ runningMax [1] 0 = 1 ∧
    FloatVal.nan ≠ FloatVal.val 1 := by
  refine ⟨by norm_num [vwapList, cumsum, cumsumAux, floatDiv], ?_, ?_, by decide⟩ <;>
    simp [runningMin, runningMax, Finset.range_one]

/-- C7 (amended): at every index with *positive cumulative volume* (in
particular at every index when all volumes are positive), the VWAP value
is a finite number lying between the running minimum and the running
maximum of the close prices; and if all volumes are equal it is exactly
the running mean of the closes. -/
theorem C7_vwap_bounds (close volume : List ℚ)
    (hlen : volume.length = close.length)
    (hnn : ∀ v ∈ volume, 0 ≤ v) (i : ℕ) (hi : i < close.length)
    (hpos : 0 < (cumsum volume).getD i 0) :
    ∃ q : ℚ, (vwapList close volume)[i]? = some (.val q) ∧
      runningMin close i ≤ q ∧ q ≤ runningMax close i ∧
      ((∀ j, j < volume.length → volume.getD j 0 = volume.getD 0 0) →
        q = (∑ j ∈ Finset.range (i + 1), close.getD j 0) / ((i : ℚ) + 1)) := by
  have hiv : i < volume.length := by omega
  have hD := cumsum_getD volume i hiv
  rw [hD] at hpos
  refine ⟨(∑ j ∈ Finset.range (i + 1), close.getD j 0 * volume.getD j 0) /
          (∑ j ∈ Finset.range (i + 1), volume.getD j 0), ?_, ?_, ?_, ?_⟩
  · rw [vwapList_getElem? close volume hlen i hi, floatDiv, if_neg (ne_of_gt hpos)]
  · rw [le_div_iff₀ hpos, Finset.mul_sum]
    exact Finset.sum_le_sum fun j hj =>
      mul_le_mul_of_nonneg_right (runningMin_le close i j hj)
        (volume_getD_nonneg volume hnn j)
  · rw [div_le_iff₀ hpos, Finset.mul_sum]
    exact Finset.sum_le_sum fun j hj =>
      mul_le_mul_of_nonneg_right (le_runningMax close i j hj)
        (volume_getD_nonneg volume hnn j)
  · intro heq
    have hv0 : ∀ j ∈ Finset.range (i + 1), volume.getD j 0 = volume.getD 0 0 :=
      fun j hj => heq j (by have := Finset.mem_range.mp hj; omega)
    have hDv : ∑ j ∈ Finset.range (i + 1), volume.getD j 0
        = ((i : ℚ) + 1) * volume.getD 0 0 := by
      rw [Finset.sum_congr rfl hv0, Finset.sum_const, Finset.card_range, nsmul_eq_mul]
      push_cast
      ring
    have hNv : ∑ j ∈ Finset.range (i + 1), close.getD j 0 * volume.getD j 0
        = (∑ j ∈ Finset.range (i + 1), close.getD j 0) * volume.getD 0 0 := by
      rw [Finset.sum_congr rfl fun j hj => by rw [hv0 j hj], ← Finset.sum_mul]
    have hv0pos : 0 < volume.getD 0 0 := by
      rw [hDv] at hpos
      by_contra hle
      push_neg at hle
      have hip : (0 : ℚ) < (i : ℚ) + 1 := by positivity
      nlinarith
    rw [hNv, hDv]
    exact mul_div_mul_right _ _ (ne_of_gt hv0pos)

/-- Witness for C7: closes `[1, 2]`, volumes `[1, 1]`, index 1: the VWAP
value `3/2` lies between `1` and `2` and equals the running mean. -/
theorem C7_vwap_bounds_witness :
    ([1, 1] : List ℚ).length = ([1, 2] : List ℚ).length ∧
    (∀ v ∈ ([1, 1] : List ℚ), 0 ≤ v) ∧
    1 < ([1, 2] : List ℚ).length ∧
    (0 : ℚ) < (cumsum [1, 1]).getD 1 0 ∧
    (∃ q : ℚ, (vwapList [1, 2] [1, 1])[1]? = some (.val q) ∧
      runningMin [1, 2] 1 ≤ q ∧ q ≤ runningMax [1, 2] 1 ∧
      ((∀ j, j < ([1, 1] : List ℚ).length →
          ([1, 1] : List ℚ).getD j 0 = ([1, 1] : List ℚ).getD 0 0) →
        q = (∑ j ∈ Finset.range 2, ([1, 2] : List ℚ).getD j 0) / ((1 : ℚ) + 1))) := by
  have hnn : ∀ v ∈ ([1, 1] : List ℚ), 0 ≤ v := by
    intro v hv
    simp only [List.mem_cons, List.not_mem_nil, or_false] at hv
    rcases hv with rfl | rfl <;> norm_num
  have hpos : (0 : ℚ) < (cumsum [1, 1]).getD 1 0 := by
    norm_num [cumsum, cumsumAux]
  exact ⟨rfl, hnn, by decide, hpos,
    C7_vwap_bounds [1, 2] [1, 1] rfl hnn 1 (by decide) hpos⟩

/-! ## C6 and C10: the indicator dispatch and the chart state -/

/-- A y-value of a plotted trace: a finite value, an infinity, or NaN. -/
inductive RVal where
  | num (x : ℝ)
  | posInf
  | negInf
  | nan

/-- A pandas optional value plotted on the chart (NaN plots as a gap). -/
noncomputable def qOptToRVal : Option ℚ → RVal
  | none => .nan
  | some q => .num (q : ℝ)

/-- A real optional value plotted on the chart. -/
noncomputable def rOptToRVal : Option ℝ → RVal
  | none => .nan
  | some x => .num x

/-- A NumPy float plotted on the chart. -/
noncomputable def floatToRVal : FloatVal → RVal
  | .val q => .num (q : ℝ)
  | .posInf => .posInf
  | .negInf => .negInf
  | .nan => .nan

/-- One `go.Scatter` trace added to the figure. -/
structure Trace where
  name : String
  y : List RVal

/-- The fetched `stock_data` DataFrame: the OHLCV columns plus the `VWAP`
column that the `"VWAP"` branch of `add_indicator` may assign. -/
structure DataFrame where
  opens : List ℚ
  highs : List ℚ
  lows : List ℚ
  closes : List ℚ
  volumes : List ℚ
  vwap : Option (List FloatVal)
deriving DecidableEq

/-- The `add_indicator` helper of `src/app.py` (lines 73-93): it reads the
enclosing `data` and `fig`, appends the matching traces to `fig`, and in
the `"VWAP"` branch also assigns `data['VWAP']`; an unrecognized name
falls through every branch and changes nothing. -/
noncomputable def addIndicator (indicator : String) (st : DataFrame × List Trace) :
    DataFrame × List Trace :=
  let data := st.1
  let fig := st.2
  if indicator = "20-Day SMA" then
    (data, fig ++ [⟨"SMA (20)", (rollingMean 20 data.closes).map qOptToRVal⟩])
  else if indicator = "20-Day EMA" then
    (data, fig ++ [⟨"EMA (20)", (ewmMean 20 data.closes).map fun q => RVal.num (q : ℝ)⟩])
  else if indicator = "20-Day Bollinger Bands" then
    (data, fig ++ [⟨"BB Upper", (bbUpper data.closes).map rOptToRVal⟩,
                   ⟨"BB Lower", (bbLower data.closes).map rOptToRVal⟩])
  else if indicator = "VWAP" then
    ({ data with vwap := some (vwapList data.closes data.volumes) },
     fig ++ [⟨"VWAP", (vwapList data.closes data.volumes).map floatToRVal⟩])
  else st

/-- A one-bar fetched DataFrame, before any indicator is computed. -/
def dfOneBar : DataFrame := ⟨[1], [1], [1], [1], [1], none⟩

/-- An empty fetched DataFrame. -/
def dfEmpty : DataFrame := ⟨[], [], [], [], [], none⟩

/-- C6 (counterexample): computing the `"VWAP"` indicator does *not* leave
the fetched price data unchanged — it assigns a new `VWAP` column to the
DataFrame. -/
theorem C6_immutability_counterexample :
    (addIndicator "VWAP" (dfOneBar, [])).1 ≠ dfOneBar ∧
    (addIndicator "VWAP" (dfOneBar, [])).1.vwap = some (vwapList [1] [1]) := by
  constructor
  · intro h
    have hv := congrArg DataFrame.vwap h
    simp [addIndicator, dfOneBar] at hv
  · simp [addIndicator, dfOneBar]

/-- C6 (amended): the SMA, EMA and Bollinger branches leave the fetched
DataFrame entirely unchanged; the VWAP branch leaves every OHLCV column
and value unchanged but assigns the derived `VWAP` column onto the fetched
series (so the series is *not* immutable under the VWAP computation). -/
theorem C6_indicators_preserve_price_columns (st : DataFrame × List Trace) :
    (addIndicator "20-Day SMA" st).1 = st.1 ∧
    (addIndicator "20-Day EMA" st).1 = st.1 ∧
    (addIndicator "20-Day Bollinger Bands" st).1 = st.1 ∧
    (addIndicator "VWAP" st).1.opens = st.1.opens ∧
    (addIndicator "VWAP" st).1.highs = st.1.highs ∧
    (addIndicator "VWAP" st).1.lows = st.1.lows ∧
    (addIndicator "VWAP" st).1.closes = st.1.closes ∧
    (addIndicator "VWAP" st).1.volumes = st.1.volumes ∧
    (addIndicator "VWAP" st).1.vwap = some (vwapList st.1.closes st.1.volumes) := by
  refine ⟨?_, ?_, ?_, ?_, ?_, ?_, ?_, ?_, ?_⟩ <;> simp [addIndicator]

/-- C10 (confirmed): any indicator name other than the four recognized
labels falls through every branch of `add_indicator`: no trace is added
and the price data is entirely unchanged. -/
theorem C10_unknown_indicator_noop (s : String)
    (h1 : s ≠ "20-Day SMA") (h2 : s ≠ "20-Day EMA")
    (h3 : s ≠ "20-Day Bollinger Bands") (h4 : s ≠ "VWAP")
    (st : DataFrame × List Trace) :
    addIndicator s st = st := by
  simp [addIndicator, h1, h2, h3, h4]

/-- Witness for C10: the unrecognized name `"RSI"` on an empty state. -/
theorem C10_unknown_indicator_noop_witness :
    addIndicator "RSI" (dfEmpty, []) = (dfEmpty, []) :=
  C10_unknown_indicator_noop "RSI" (by decide) (by decide) (by decide) (by decide)
    (dfEmpty, [])

/-! ## C8: the API-key startup check -/

/-- The result of the startup credential check. -/
inductive StartupOutcome where
  | halted (msg : String)
  | proceed (key : String)

/-- `api_key = os.getenv('DEEPSEEK_API_KEY')` followed by
`if not api_key: st.error(...); st.stop()` (`src/app.py` lines 25-28).
`os.getenv` yields `None` when the variable is absent; `not api_key` is
also true for the empty string. -/
def checkApiKey : Option String → StartupOutcome
  | none => .halted "Please set your DEEPSEEK_API_KEY in the .env file"
  | some k =>
    if k = "" then .halted "Please set your DEEPSEEK_API_KEY in the .env file"
    else .proceed k

/-- What one run of the script did: whether `st.stop()` halted it at
startup, the configuration error shown, how many remote analysis requests
were dispatched, and the analysis outcome. -/
structure SessionTrace where
  halted : Bool
  configError : Option String
  remoteCalls : ℕ
  analysis : Option AnalysisResult

/-- One run of the script up to one "Run AI Analysis" click: a failed
credential check stops the script before any request; otherwise exactly
one request is posted and its outcome handled.  Every analysis-time error
is caught and reported by `handleResponse`; none reaches `st.stop()`. -/
def runSession (env : Option String) (net : NetOutcome) : SessionTrace :=
  match checkApiKey env with
  | .halted m =>
    { halted := true, configError := some m, remoteCalls := 0, analysis := none }
  | .proceed _ =>
    { halted := false, configError := none, remoteCalls := 1,
      analysis := some (handleResponse net) }

/-- C8 (confirmed): an absent credential halts the run at startup with the
configuration error reported and zero remote calls performed; a run is
halted exactly when the credential check failed (so configuration errors
are the only halting class); every halted run performs no remote calls;
and with a credential present every analysis outcome — errors included —
is handled without halting. -/
theorem C8_missing_credential_halts :
    (∀ net, runSession none net =
      { halted := true,
        configError := some "Please set your DEEPSEEK_API_KEY in the .env file",
        remoteCalls := 0, analysis := none }) ∧
    (∀ env net, (runSession env net).halted = true ↔
      ∃ m, checkApiKey env = .halted m) ∧
    (∀ env net, (runSession env net).halted = true →
      (runSession env net).remoteCalls = 0) ∧
    (∀ k net, k ≠ "" → (runSession (some k) net).halted = false ∧
      (runSession (some k) net).analysis = some (handleResponse net)) := by
  have hcase : ∀ env, (∃ m, checkApiKey env = .halted m) ∨
      (∃ k, checkApiKey env = .proceed k) := by
    intro env
    match env with
    | none => exact .inl ⟨_, rfl⟩
    | some k =>
      by_cases hk : k = ""
      · exact .inl ⟨"Please set your DEEPSEEK_API_KEY in the .env file",
          by simp [checkApiKey, hk]⟩
      · exact .inr ⟨k, by simp [checkApiKey, hk]⟩
  refine ⟨fun net => rfl, ?_, ?_, ?_⟩
  · intro env net
    rcases hcase env with ⟨m, hm⟩ | ⟨k, hk⟩
    · simp [runSession, hm]
    · simp [runSession, hk]
  · intro env net h
    rcases hcase env with ⟨m, hm⟩ | ⟨k, hk⟩
    · simp [runSession, hm]
    · simp [runSession, hk] at h
  · intro k net hk
    simp [runSession, checkApiKey, hk]

/-- Witness for C8: the absent credential and the credential `"k"` with a
timed-out analysis call. -/
theorem C8_missing_credential_halts_witness :
    runSession none (.timeout "t") =
      { halted := true,
        configError := some "Please set your DEEPSEEK_API_KEY in the .env file",
        remoteCalls := 0, analysis := none } ∧
    ((runSession (some "k") (.timeout "t")).halted = false ∧
     (runSession (some "k") (.timeout "t")).analysis =
       some (handleResponse (.timeout "t"))) :=
  ⟨C8_missing_credential_halts.1 (.timeout "t"),
   C8_missing_credential_halts.2.2.2 "k" (.timeout "t") (by decide)⟩

/-! ## C9: credential redaction in the request-header log record -/

/-- The request headers built for the analysis call (`src/app.py` lines
114-117). -/
def buildHeaders (apiKey : String) : List (String × String) :=
  [("Authorization", "Bearer " ++ apiKey), ("Content-Type", "application/json")]

/-- `safe_headers = headers.copy(); safe_headers["Authorization"] =
"REDACTED"` (lines 151-152): the copy logged in place of the real
headers. -/
def redactAuth (hs : List (String × String)) : List (String × String) :=
  hs.map fun p => if p.1 = "Authorization" then (p.1, "REDACTED") else p

/-- The request-header record passed to `logging.debug` (line 153). -/
def loggedRequestHeaders (apiKey : String) : List (String × String) :=
  redactAuth (buildHeaders apiKey)

theorem loggedRequestHeaders_eq (k : String) :
    loggedRequestHeaders k =
      [("Authorization", "REDACTED"), ("Content-Type", "application/json")] := rfl

/-- No string starting with `"Bearer "` equals either logged header
value. -/
theorem bearer_notin_logged (k : String) :
    ("Bearer " ++ k) ≠ "REDACTED" ∧ ("Bearer " ++ k) ≠ "application/json" := by
  constructor <;>
    · intro h
      have hd := congrArg (fun t => t.data.head?) h
      simp [String.data_append] at hd

/-- C9 (confirmed): the Authorization value is replaced by `"REDACTED"`
before the request-header record is logged, so the record is independent
of the credential (identical across any two runs differing only in the
key) and never contains the bearer-token value. -/
theorem C9_credential_redaction :
    (∀ k1 k2, loggedRequestHeaders k1 = loggedRequestHeaders k2) ∧
    (∀ k, (loggedRequestHeaders k).lookup "Authorization" = some "REDACTED") ∧
    (∀ k v, ("Authorization", v) ∈ loggedRequestHeaders k → v = "REDACTED") ∧
    (∀ k, ("Bearer " ++ k) ∉ (loggedRequestHeaders k).map Prod.snd) := by
  refine ⟨fun k1 k2 => (loggedRequestHeaders_eq k1).trans (loggedRequestHeaders_eq k2).symm,
    fun k => rfl, ?_, ?_⟩
  · intro k v hv
    rw [loggedRequestHeaders_eq] at hv
    simp at hv
    exact hv
  · intro k hv
    rw [loggedRequestHeaders_eq] at hv
    simp at hv
    rcases hv with h | h
    · exact (bearer_notin_logged k).1 h
    · exact (bearer_notin_logged k).2 h

/-- Witness for C9: two concrete credentials produce the identical logged
record, with the Authorization value redacted. -/
theorem C9_credential_redaction_witness :
    loggedRequestHeaders "secret1" = loggedRequestHeaders "secret2" ∧
    (loggedRequestHeaders "secret1").lookup "Authorization" = some "REDACTED" ∧
    ("REDACTED" : String) = "REDACTED" ∧
    ("Bearer " ++ "secret1") ∉ (loggedRequestHeaders "secret1").map Prod.snd :=
  ⟨C9_credential_redaction.1 "secret1" "secret2",
   C9_credential_redaction.2.1 "secret1",
   C9_credential_redaction.2.2.1 "secret1" "REDACTED" (by decide),
   C9_credential_redaction.2.2.2 "secret1"⟩
